import Mathlib

/-!
Verification of the URL-shortener service in `app.py`.

The embedding translates the two Flask request handlers (`shorten_url`,
`redirect_to_long_url`), the `URL` database model (with its `unique=True`
constraint on `short_id`), and the short-id generator
`shortuuid.uuid()[:7]` into pure Lean functions.  The database session is
modelled as an explicit list of rows threaded through the handlers; the
random 128-bit value drawn by `uuid.uuid4()` is an explicit `Nat`
parameter.  JSON request bodies are modelled by an inductive `Json` type
together with Python truthiness, so that the handler's behaviour on
non-string `url` values is captured exactly.
-/

namespace URLShortener

/-! ### The shortuuid library model

`shortuuid.uuid()` encodes `uuid.uuid4().int` (a random value below
`2^128`) in the default 57-character alphabet, left-padded with the first
alphabet character to the fixed length 22 (`math.ceil(math.log(2**128, 57))`).
-/

/-- shortuuid's default alphabet: digits and ASCII letters with the
visually ambiguous characters `0`, `O`, `I`, `l`, `1` removed, in sorted
order (57 characters). -/
def shortuuidAlphabet : List Char :=
  "23456789ABCDEFGHJKLMNPQRSTUVWXYZabcdefghijkmnopqrstuvwxyz".toList

/-- The `while number:` loop of shortuuid's `int_to_string`: emit base-57
digits least-significant first.  The loop runs at most `number` times, so
`fuel = number` at the top-level call makes the recursion exact. -/
def int_to_string_go (fuel : Nat) (number : Nat) : List Char :=
  match fuel with
  | 0 => []
  | fuel' + 1 =>
    if number = 0 then []
    else shortuuidAlphabet.getD (number % 57) ' ' :: int_to_string_go fuel' (number / 57)

/-- shortuuid's `int_to_string(number, alphabet, padding)`: base-57 digits
of `number`, padded with `alphabet[0]` up to `padding` characters, then
reversed into most-significant-first order. -/
def int_to_string (number : Nat) (padding : Nat) : List Char :=
  let output := int_to_string_go number number
  let padded := output ++ List.replicate (padding - output.length) (shortuuidAlphabet.getD 0 ' ')
  padded.reverse

/-- `shortuuid.uuid()`: encode the 128-bit random value `r` with the
default alphabet and padding length 22. -/
def shortuuid_uuid (r : Nat) : List Char :=
  int_to_string r 22

/-- `shortuuid.uuid()[:7]` as performed by `URL.__init__`: the random
7-character short id. -/
def generate_short_id (r : Nat) : List Char :=
  (shortuuid_uuid r).take 7

/-! ### The data model

The `URL` table row.  The auto-incrementing `id` and the `created_at`
timestamp play no role in any handler's logic, so a row is its
`short_id` (declared `unique=True, nullable=False`) and its `long_url`. -/

structure URL where
  short_id : String
  long_url : String
deriving DecidableEq

/-- The database: the list of committed rows, in insertion order. -/
abbrev Store := List URL

/-- `db.session.add(new_url); db.session.commit()` against the `unique=True`
constraint on `short_id`: the commit raises an integrity error instead of
inserting when some committed row already carries the same `short_id`. -/
def store_insert (store : Store) (row : URL) : Except Unit Store :=
  if store.any (fun x => x.short_id == row.short_id) then Except.error ()
  else Except.ok (store ++ [row])

/-! ### JSON request bodies and Python truthiness -/

inductive Json where
  | null : Json
  | bool (b : Bool) : Json
  | num (n : Int) : Json
  | str (s : String) : Json
  | arr (xs : List Json) : Json
  | obj (kvs : List (String × Json)) : Json

/-- Python truthiness of a JSON value (`bool(x)`). -/
def truthy : Json → Bool
  | Json.null => false
  | Json.bool b => b
  | Json.num n => n != 0
  | Json.str s => s != ""
  | Json.arr xs => !xs.isEmpty
  | Json.obj kvs => !kvs.isEmpty

/-- `data.get('url')` evaluated in boolean context: `None` is falsy. -/
def truthyOpt : Option Json → Bool
  | none => false
  | some j => truthy j

/-- `data.get(k)` on the parsed JSON object. -/
def bodyGet (body : List (String × Json)) (k : String) : Option Json :=
  (body.find? (fun p => p.1 == k)).map (fun p => p.2)

/-- Python's `s.startswith(p)` for a single pattern: `p` is a prefix
of `s`. -/
def startswith (s p : String) : Bool :=
  p.toList.isPrefixOf s.toList

/-! ### The request handlers -/

/-- Outcome of `POST /shorten`. -/
inductive ShortenResult where
  /-- 400 with `{"error": msg}`. -/
  | badRequest (msg : String) : ShortenResult
  /-- 200 dedup-hit with `{"short_id": code, ..., "message": msg}`. -/
  | dedupHit (code : String) (msg : String) : ShortenResult
  /-- 201 with `{"short_id": code, ...}`. -/
  | created (code : String) : ShortenResult
  /-- Unhandled `AttributeError` from `long_url.startswith` on a
  non-string value, surfaced by Flask as a 500. -/
  | typeError : ShortenResult
  /-- Unhandled database integrity error from `db.session.commit`,
  surfaced by Flask as a 500. -/
  | integrityError : ShortenResult
deriving DecidableEq

/-- The `shorten_url` handler.  `body` is the parsed JSON object of the
request, `r` the random 128-bit value `uuid.uuid4().int` drawn inside
`URL.__init__` for this request.  Returns the response together with the
store after the request. -/
def shorten_url (store : Store) (body : List (String × Json)) (r : Nat) :
    ShortenResult × Store :=
  let long_url := bodyGet body "url"
  if truthyOpt long_url = false then
    (ShortenResult.badRequest "Missing 'url' parameter", store)
  else
    match long_url with
    | some (Json.str s) =>
      if !(startswith s "http://" || startswith s "https://") then
        (ShortenResult.badRequest "URL must start with http:// or https://", store)
      else
        match store.find? (fun x => x.long_url == s) with
        | some existing =>
          (ShortenResult.dedupHit existing.short_id "URL already shortened", store)
        | none =>
          let new_url : URL := ⟨String.mk (generate_short_id r), s⟩
          match store_insert store new_url with
          | Except.ok store' => (ShortenResult.created new_url.short_id, store')
          | Except.error _ => (ShortenResult.integrityError, store)
    | _ => (ShortenResult.typeError, store)

/-- Outcome of `GET /<short_id>`. -/
inductive ResolveResult where
  /-- `redirect(long_url, code=302)`. -/
  | redirect302 (long_url : String) : ResolveResult
  /-- 404 with `{"error": msg}`. -/
  | notFound404 (msg : String) : ResolveResult
deriving DecidableEq

/-- The `redirect_to_long_url` handler: an exact-match query on
`short_id`, a read-only transaction (the store is returned unchanged). -/
def redirect_to_long_url (store : Store) (short_id : String) :
    ResolveResult × Store :=
  match store.find? (fun x => x.short_id == short_id) with
  | some row => (ResolveResult.redirect302 row.long_url, store)
  | none => (ResolveResult.notFound404 "Short URL not found", store)

/-- A sequence of sequential `POST /shorten` requests, each with its body
and its random draw, threaded through the store. -/
def runRequests (store : Store) : List (List (String × Json) × Nat) → Store
  | [] => store
  | (body, r) :: rest => runRequests (shorten_url store body r).2 rest

/-- The storage-layer invariant backed by `unique=True` on `short_id`:
any two rows at distinct positions carry distinct short codes. -/
def UniqueCodes (store : Store) : Prop :=
  store.Pairwise (fun a b => a.short_id ≠ b.short_id)

/-- Logical dedup invariant: at most one row per distinct `long_url`. -/
def UniqueLongs (store : Store) : Prop :=
  store.Pairwise (fun a b => a.long_url ≠ b.long_url)

theorem alphabet_getD_mem : ∀ i < 57, shortuuidAlphabet.getD i ' ' ∈ shortuuidAlphabet := by decide

theorem int_to_string_go_mem (fuel : Nat) : ∀ (n : Nat) (c : Char),
    c ∈ int_to_string_go fuel n → c ∈ shortuuidAlphabet := by
  induction fuel with
  | zero => intro n c hc; simp [int_to_string_go] at hc
  | succ f ih =>
    intro n c hc
    simp only [int_to_string_go] at hc
    by_cases h0 : n = 0
    · simp [h0] at hc
    · rw [if_neg h0] at hc
      rcases List.mem_cons.mp hc with hc | hc
      · subst hc; exact alphabet_getD_mem _ (Nat.mod_lt _ (by norm_num))
      · exact ih _ _ hc

theorem int_to_string_go_length (fuel : Nat) : ∀ (n k : Nat), n < 57 ^ k →
    (int_to_string_go fuel n).length ≤ k := by
  induction fuel with
  | zero => intro n k _; simp [int_to_string_go]
  | succ f ih =>
    intro n k h
    simp only [int_to_string_go]
    by_cases h0 : n = 0
    · simp [h0]
    · rw [if_neg h0]
      cases k with
      | zero => simp at h; omega
      | succ k' =>
        simp only [List.length_cons]
        have hdiv : n / 57 < 57 ^ k' := by
          rw [Nat.div_lt_iff_lt_mul (by norm_num)]
          calc n < 57 ^ (k' + 1) := h
          _ = 57 ^ k' * 57 := by rw [pow_succ]
        exact Nat.succ_le_succ (ih _ _ hdiv)

theorem int_to_string_length (n p : Nat) :
    (int_to_string n p).length = max (int_to_string_go n n).length p := by
  simp only [int_to_string, List.length_reverse, List.length_append, List.length_replicate]
  omega

theorem shortuuid_uuid_length (r : Nat) (hr : r < 2 ^ 128) :
    (shortuuid_uuid r).length = 22 := by
  have h1 : r < 57 ^ 22 := lt_trans hr (by norm_num)
  have h2 := int_to_string_go_length r r 22 h1
  rw [shortuuid_uuid, int_to_string_length]
  omega

theorem generate_short_id_length (r : Nat) : (generate_short_id r).length = 7 := by
  rw [generate_short_id, List.length_take, shortuuid_uuid, int_to_string_length]
  omega

theorem int_to_string_mem (n p : Nat) (c : Char) (hc : c ∈ int_to_string n p) :
    c ∈ shortuuidAlphabet := by
  simp only [int_to_string, List.mem_reverse, List.mem_append] at hc
  rcases hc with hc | hc
  · exact int_to_string_go_mem _ _ _ hc
  · rw [List.eq_of_mem_replicate hc]
    exact alphabet_getD_mem 0 (by norm_num)

theorem generate_short_id_mem (r : Nat) (c : Char) (hc : c ∈ generate_short_id r) :
    c ∈ shortuuidAlphabet :=
  int_to_string_mem _ _ _ ((List.take_sublist _ _).subset hc)

theorem alphabet_no_ambiguous : ∀ c ∈ shortuuidAlphabet, c ∉ ['0', 'O', 'I', 'l', '1'] := by decide

theorem shorten_created {store : Store} {body : List (String × Json)} {r : Nat}
    {code : String} {store' : Store}
    (h : shorten_url store body r = (ShortenResult.created code, store')) :
    ∃ s, bodyGet body "url" = some (Json.str s) ∧
      (s != "") = true ∧
      (startswith s "http://" || startswith s "https://") = true ∧
      store.find? (fun x => x.long_url == s) = none ∧
      code = String.mk (generate_short_id r) ∧
      store.any (fun x => x.short_id == code) = false ∧
      store' = store ++ [⟨code, s⟩] := by
  simp only [shorten_url, store_insert] at h
  split at h
  · simp at h
  · next hfalse =>
    split at h
    · next s heq =>
      split at h
      · simp at h
      · next hstart =>
        split at h
        · simp at h
        · next hfind =>
          split at h
          · next store'' heq2 =>
            split at heq2
            · simp at heq2
            · next hany =>
              simp only [Prod.mk.injEq, ShortenResult.created.injEq] at h
              simp only [Except.ok.injEq] at heq2
              obtain ⟨hcode, hstore⟩ := h
              refine ⟨s, heq, ?_, ?_, hfind, hcode.symm, ?_, ?_⟩
              · simp only [truthyOpt, truthy, heq] at hfalse
                simpa using hfalse
              · rcases h1 : startswith s "http://" <;>
                  rcases h2 : startswith s "https://" <;> simp_all
              · rw [← hcode]; simpa using hany
              · rw [← hstore, ← heq2, ← hcode]
          · simp at h
    · simp at h

theorem shorten_dedup {store : Store} {body : List (String × Json)} {r : Nat}
    {code msg : String} {store' : Store}
    (h : shorten_url store body r = (ShortenResult.dedupHit code msg, store')) :
    ∃ s existing, bodyGet body "url" = some (Json.str s) ∧
      store.find? (fun x => x.long_url == s) = some existing ∧
      code = existing.short_id ∧
      msg = "URL already shortened" ∧
      store' = store := by
  simp only [shorten_url, store_insert] at h
  split at h
  · simp at h
  · next hfalse =>
    split at h
    · next s heq =>
      split at h
      · simp at h
      · next hstart =>
        split at h
        · next existing hfind =>
          simp only [Prod.mk.injEq, ShortenResult.dedupHit.injEq] at h
          exact ⟨s, existing, heq, hfind, h.1.1.symm, h.1.2.symm, h.2.symm⟩
        · next hfind =>
          split at h
          · next store'' heq2 =>
            simp at h
          · simp at h
    · simp at h

theorem shorten_store_cases {store : Store} {body : List (String × Json)} {r : Nat}
    {res : ShortenResult} {store' : Store}
    (h : shorten_url store body r = (res, store')) :
    store' = store ∨ ∃ code, res = ShortenResult.created code := by
  simp only [shorten_url, store_insert] at h
  split at h
  · exact Or.inl (congrArg Prod.snd h.symm)
  · split at h
    · split at h
      · exact Or.inl (congrArg Prod.snd h.symm)
      · split at h
        · exact Or.inl (congrArg Prod.snd h.symm)
        · split at h
          · exact Or.inr ⟨_, congrArg Prod.fst h.symm⟩
          · exact Or.inl (congrArg Prod.snd h.symm)
    · exact Or.inl (congrArg Prod.snd h.symm)

theorem shorten_cases (store : Store) (body : List (String × Json)) (r : Nat) :
    ((shorten_url store body r).2 = store ∧
       ∀ code, (shorten_url store body r).1 ≠ ShortenResult.created code) ∨
    (∃ s, bodyGet body "url" = some (Json.str s) ∧
       store.find? (fun x => x.long_url == s) = none ∧
       store.any (fun x => x.short_id == String.mk (generate_short_id r)) = false ∧
       (shorten_url store body r).1 = ShortenResult.created (String.mk (generate_short_id r)) ∧
       (shorten_url store body r).2 = store ++ [⟨String.mk (generate_short_id r), s⟩]) := by
  rcases hres : shorten_url store body r with ⟨res, store'⟩
  by_cases hc : ∃ code, res = ShortenResult.created code
  · obtain ⟨code, rfl⟩ := hc
    obtain ⟨s, heq, _, _, hfind, hcode, hany, hstore⟩ := shorten_created hres
    subst hcode
    exact Or.inr ⟨s, heq, hfind, hany, rfl, hstore⟩
  · rcases shorten_store_cases hres with hstore | hex
    · exact Or.inl ⟨hstore, fun code hcode => hc ⟨code, hcode⟩⟩
    · exact absurd hex hc

theorem uniqueCodes_step (store : Store) (body : List (String × Json)) (r : Nat)
    (h : UniqueCodes store) : UniqueCodes (shorten_url store body r).2 := by
  rcases shorten_cases store body r with ⟨hstore, _⟩ | ⟨s, _, _, hany, _, hstore⟩
  · rw [hstore]; exact h
  · rw [hstore]
    rw [UniqueCodes, List.pairwise_append]
    refine ⟨h, List.pairwise_singleton _ _, ?_⟩
    intro a ha b hb
    rw [List.mem_singleton] at hb
    subst hb
    have := List.any_eq_false.mp hany a ha
    simpa using this

theorem uniqueLongs_step (store : Store) (body : List (String × Json)) (r : Nat)
    (h : UniqueLongs store) : UniqueLongs (shorten_url store body r).2 := by
  rcases shorten_cases store body r with ⟨hstore, _⟩ | ⟨s, _, hfind, _, _, hstore⟩
  · rw [hstore]; exact h
  · rw [hstore]
    rw [UniqueLongs, List.pairwise_append]
    refine ⟨h, List.pairwise_singleton _ _, ?_⟩
    intro a ha b hb
    rw [List.mem_singleton] at hb
    subst hb
    have := List.find?_eq_none.mp hfind a ha
    simpa using this

theorem uniqueCodes_run (reqs : List (List (String × Json) × Nat)) :
    ∀ store : Store, UniqueCodes store → UniqueCodes (runRequests store reqs) := by
  induction reqs with
  | nil => intro store h; exact h
  | cons req rest ih =>
    intro store h
    rcases req with ⟨body, r⟩
    exact ih _ (uniqueCodes_step store body r h)

theorem uniqueLongs_run (reqs : List (List (String × Json) × Nat)) :
    ∀ store : Store, UniqueLongs store → UniqueLongs (runRequests store reqs) := by
  induction reqs with
  | nil => intro store h; exact h
  | cons req rest ih =>
    intro store h
    rcases req with ⟨body, r⟩
    exact ih _ (uniqueLongs_step store body r h)

theorem shorten_second {store store₁ : Store} {body : List (String × Json)} {r1 : Nat}
    {code : String} (r2 : Nat)
    (h1 : shorten_url store body r1 = (ShortenResult.created code, store₁)) :
    shorten_url store₁ body r2 = (ShortenResult.dedupHit code "URL already shortened", store₁) := by
  obtain ⟨s, heq, hne, hstart, hfind, hcode, hany, hstore⟩ := shorten_created h1
  subst hstore
  subst hcode
  simp [shorten_url, heq, truthyOpt, truthy, hne, hstart, List.find?_append, hfind, List.find?]

theorem find?_short_id_of_mem {store : Store} (hinv : UniqueCodes store)
    {x : URL} (hx : x ∈ store) :
    store.find? (fun y => y.short_id == x.short_id) = some x := by
  cases hfind : store.find? (fun y => y.short_id == x.short_id) with
  | none =>
    exfalso
    have := List.find?_eq_none.mp hfind x hx
    simp at this
  | some y =>
    have hy : y ∈ store := List.mem_of_find?_eq_some hfind
    have hpy := List.find?_some hfind
    simp only [beq_iff_eq] at hpy
    by_cases hxy : y = x
    · rw [hxy]
    · have hsym : Symmetric (fun a b : URL => a.short_id ≠ b.short_id) :=
        fun _ _ h h2 => h h2.symm
      exact absurd hpy (List.Pairwise.forall hsym hinv hy hx hxy)

/-- C1: for every accepted `long_url`, allocation (`POST /shorten`) followed by
resolution of the returned short code yields back exactly the original
`long_url` string, both on fresh creation and on dedup-hit, provided the
store satisfies its `short_id`-uniqueness invariant. -/
theorem allocate_resolve_round_trip
    {store store' : Store} {body : List (String × Json)} {r : Nat} {u : String}
    {res : ShortenResult}
    (hinv : UniqueCodes store)
    (hu : bodyGet body "url" = some (Json.str u))
    (h : shorten_url store body r = (res, store')) :
    (∀ code, res = ShortenResult.created code →
       (redirect_to_long_url store' code).1 = ResolveResult.redirect302 u) ∧
    (∀ code msg, res = ShortenResult.dedupHit code msg →
       (redirect_to_long_url store' code).1 = ResolveResult.redirect302 u) := by
  constructor
  · intro code hres
    subst hres
    obtain ⟨s, heq, _, _, _, _, hany, hstore⟩ := shorten_created h
    rw [heq] at hu
    obtain rfl : s = u := by simpa using hu
    subst hstore
    have hnone : store.find? (fun x => x.short_id == code) = none :=
      List.find?_eq_none.mpr (fun x hx => by
        have := List.any_eq_false.mp hany x hx
        simpa using this)
    simp [redirect_to_long_url, List.find?_append, hnone, List.find?]
  · intro code msg hres
    subst hres
    obtain ⟨s, existing, heq, hfind, hcode, hmsg, hstore⟩ := shorten_dedup h
    rw [heq] at hu
    obtain rfl : s = u := by simpa using hu
    rw [hstore]
    subst hcode
    have hmem : existing ∈ store := List.mem_of_find?_eq_some hfind
    have hlong : existing.long_url = s := by
      have := List.find?_some hfind
      simpa using this
    simp [redirect_to_long_url, find?_short_id_of_mem hinv hmem, hlong]

/-- C2: submitting the same URL twice in sequence makes the second call return
the first call's short code as a 200 dedup-hit with message
"URL already shortened" and an unchanged store; and across any sequence of
sequential allocate calls at most one record is persisted per distinct
`long_url`. -/
theorem allocate_idempotent_dedup :
    (∀ (store store₁ : Store) (body : List (String × Json)) (r1 r2 : Nat) (code : String),
        shorten_url store body r1 = (ShortenResult.created code, store₁) →
        shorten_url store₁ body r2 =
          (ShortenResult.dedupHit code "URL already shortened", store₁)) ∧
    (∀ (store : Store) (reqs : List (List (String × Json) × Nat)),
        UniqueLongs store → UniqueLongs (runRequests store reqs)) :=
  ⟨fun _ _ _ _ r2 _ h1 => shorten_second r2 h1,
   fun store reqs h => uniqueLongs_run reqs store h⟩

/-- C3: contrary to the claim, the handler performs no collision retry.  At a
store already holding the short code that the generator produces for random
draw 0, a creation request for a fresh URL surfaces the raw storage
integrity error at once (a 500), with no second candidate and no
`AllocationExhausted`. -/
theorem collision_surfaces_storage_error :
    shorten_url [⟨"2222222", "https://a.example"⟩] [("url", Json.str "https://b.example")] 0 =
      (ShortenResult.integrityError, [⟨"2222222", "https://a.example"⟩]) := by decide

/-- C4: `POST /shorten` fails with 400 exactly on an absent/empty `url` (body
`Missing 'url' parameter`) or on a scheme that is neither `http://` nor
`https://` (body `URL must start with http:// or https://`), and in both
reject cases the store is unchanged; a scheme-valid URL never yields a 400. -/
theorem invalid_input_iff (store : Store) (body : List (String × Json)) (r : Nat) :
    (bodyGet body "url" = none →
       shorten_url store body r = (ShortenResult.badRequest "Missing 'url' parameter", store)) ∧
    (∀ u, bodyGet body "url" = some (Json.str u) →
       (u = "" →
          shorten_url store body r = (ShortenResult.badRequest "Missing 'url' parameter", store)) ∧
       ((startswith u "http://" || startswith u "https://") = false → u ≠ "" →
          shorten_url store body r =
            (ShortenResult.badRequest "URL must start with http:// or https://", store)) ∧
       ((startswith u "http://" || startswith u "https://") = true →
          ∀ msg store', shorten_url store body r ≠ (ShortenResult.badRequest msg, store'))) := by
  refine ⟨?_, ?_⟩
  · intro hnone
    simp [shorten_url, hnone, truthyOpt]
  · intro u heq
    refine ⟨?_, ?_, ?_⟩
    · rintro rfl
      simp [shorten_url, heq, truthyOpt, truthy]
    · intro hsw hne
      have hne' : (u != "") = true := by simpa using hne
      simp [shorten_url, heq, truthyOpt, truthy, hne', hsw]
    · intro hsw msg store' hbad
      have hne : u ≠ "" := by
        rintro rfl
        simp [startswith, List.isPrefixOf] at hsw
      have hne' : (u != "") = true := by simpa using hne
      simp [shorten_url, store_insert, heq, truthyOpt, truthy, hne', hsw] at hbad
      split at hbad
      · simp at hbad
      · split at hbad
        · simp at hbad
        · simp at hbad

/-- C5: resolution of a short code held by no stored record (byte-for-byte,
case-sensitively) returns 404 with "Short URL not found"; resolution of a
stored short code returns a 302 redirect to that record's `long_url`. -/
theorem resolve_exact_match (store : Store) (sid : String) :
    ((∀ row ∈ store, row.short_id ≠ sid) →
       redirect_to_long_url store sid = (ResolveResult.notFound404 "Short URL not found", store)) ∧
    ((∃ row ∈ store, row.short_id = sid) →
       ∃ row ∈ store, row.short_id = sid ∧
         redirect_to_long_url store sid = (ResolveResult.redirect302 row.long_url, store)) := by
  constructor
  · intro hall
    have hnone : store.find? (fun x => x.short_id == sid) = none :=
      List.find?_eq_none.mpr (fun x hx => by simpa using hall x hx)
    simp [redirect_to_long_url, hnone]
  · rintro ⟨row, hrow, hsid⟩
    cases hfind : store.find? (fun x => x.short_id == sid) with
    | none =>
      exfalso
      have := List.find?_eq_none.mp hfind row hrow
      simp [hsid] at this
    | some found =>
      refine ⟨found, List.mem_of_find?_eq_some hfind, ?_, ?_⟩
      · have := List.find?_some hfind
        simpa using this
      · simp [redirect_to_long_url, hfind]

/-- C6: `short_id` uniqueness is an invariant preserved across any sequence of
allocate calls, and it is enforced at the storage layer: inserting a row
whose `short_id` already occurs in the store is rejected by the store
itself. -/
theorem short_code_uniqueness_invariant :
    (∀ (store : Store) (reqs : List (List (String × Json) × Nat)),
        UniqueCodes store → UniqueCodes (runRequests store reqs)) ∧
    (∀ (store : Store) (row : URL), (∃ x ∈ store, x.short_id = row.short_id) →
        store_insert store row = Except.error ()) := by
  constructor
  · exact fun store reqs h => uniqueCodes_run reqs store h
  · rintro store row ⟨x, hx, hsid⟩
    have hany : store.any (fun y => y.short_id == row.short_id) = true :=
      List.any_eq_true.mpr ⟨x, hx, by simpa using hsid⟩
    simp [store_insert, hany]

/-- C7: the generated short code is `shortuuid.uuid()` (a 22-character
encoding of a 128-bit random value) truncated to exactly 7 characters, and
every code returned by a successful creation has length 7. -/
theorem short_code_seven_chars (r : Nat) :
    (r < 2 ^ 128 → (shortuuid_uuid r).length = 22) ∧
    generate_short_id r = (shortuuid_uuid r).take 7 ∧
    (generate_short_id r).length = 7 ∧
    (∀ (store : Store) (body : List (String × Json)) (code : String) (store' : Store),
        shorten_url store body r = (ShortenResult.created code, store') →
        code.length = 7) := by
  refine ⟨shortuuid_uuid_length r, rfl, generate_short_id_length r, ?_⟩
  intro store body code store' h
  obtain ⟨s, _, _, _, _, hcode, _, _⟩ := shorten_created h
  rw [hcode]
  show (String.mk (generate_short_id r)).length = 7
  simpa [String.length] using generate_short_id_length r

/-- C8: on a new creation exactly one row is appended and all pre-existing
rows are untouched; on a dedup-hit the store is unchanged; resolution is a
read-only transaction that never mutates the store. -/
theorem frame_conditions (store : Store) (body : List (String × Json)) (r : Nat) (sid : String) :
    (∀ code, (shorten_url store body r).1 = ShortenResult.created code →
       ∃ row, row.short_id = code ∧ (shorten_url store body r).2 = store ++ [row]) ∧
    (∀ code msg, (shorten_url store body r).1 = ShortenResult.dedupHit code msg →
       (shorten_url store body r).2 = store) ∧
    (redirect_to_long_url store sid).2 = store := by
  refine ⟨?_, ?_, ?_⟩
  · intro code hc
    rcases shorten_cases store body r with ⟨_, hnc⟩ | ⟨s, _, _, _, hres, hstore⟩
    · exact absurd hc (hnc code)
    · rw [hres] at hc
      injection hc with hcode
      exact ⟨⟨String.mk (generate_short_id r), s⟩, hcode, hstore⟩
  · intro code msg hc
    rcases shorten_cases store body r with ⟨hstore, _⟩ | ⟨s, _, _, _, hres, _⟩
    · exact hstore
    · rw [hres] at hc
      exact absurd hc (by simp)
  · rw [redirect_to_long_url]
    split <;> rfl

/-- C9 counterexample: a present non-string `url` value does not always reach
`startswith`: the falsy boolean `false` is caught by `if not long_url` and
answered with 400 "Missing 'url' parameter", not with an unhandled
exception. -/
theorem nonstring_url_falsy_counterexample :
    (shorten_url [] [("url", Json.bool false)] 0).1 =
      ShortenResult.badRequest "Missing 'url' parameter" ∧
    (shorten_url [] [("url", Json.bool false)] 0).1 ≠ ShortenResult.typeError := by decide

/-- C9 (amended): if the body's `url` value is present, truthy and not a
string (e.g. a non-zero JSON number or `true`), the handler reaches
`long_url.startswith` on a non-string and raises an unhandled exception,
surfaced as a 500. -/
theorem nonstring_truthy_url_type_error (store : Store) (body : List (String × Json)) (r : Nat)
    (j : Json) (hget : bodyGet body "url" = some j) (hstr : ∀ s, j ≠ Json.str s)
    (htruthy : truthy j = true) :
    shorten_url store body r = (ShortenResult.typeError, store) := by
  cases j with
  | str s => exact absurd rfl (hstr s)
  | null => simp [truthy] at htruthy
  | bool b =>
    cases b
    · simp [truthy] at htruthy
    · simp [shorten_url, hget, truthyOpt, truthy]
  | num n =>
    simp only [truthy] at htruthy
    simp [shorten_url, hget, truthyOpt, truthy, htruthy]
  | arr xs =>
    simp only [truthy] at htruthy
    simp [shorten_url, hget, truthyOpt, truthy, htruthy]
  | obj kvs =>
    simp only [truthy] at htruthy
    simp [shorten_url, hget, truthyOpt, truthy, htruthy]

/-- C10: every character of a generated short code belongs to shortuuid's
default 57-character URL-safe alphabet, which excludes the visually
ambiguous characters `0`, `O`, `I`, `l`, `1`. -/
theorem short_code_alphabet_urlsafe (r : Nat) (c : Char)
    (hc : c ∈ generate_short_id r) :
    c ∈ shortuuidAlphabet ∧ c ∉ ['0', 'O', 'I', 'l', '1'] := by
  have hmem := generate_short_id_mem r c hc
  exact ⟨hmem, alphabet_no_ambiguous c hmem⟩

/-- Witness for C1 -/
theorem allocate_resolve_round_trip_witness :
    (redirect_to_long_url [⟨"2222222", "https://example.com/a"⟩] "2222222").1 =
      ResolveResult.redirect302 "https://example.com/a" :=
  (@allocate_resolve_round_trip [] [⟨"2222222", "https://example.com/a"⟩]
      [("url", Json.str "https://example.com/a")] 0 "https://example.com/a"
      (ShortenResult.created "2222222") List.Pairwise.nil rfl (by decide)).1
    "2222222" rfl

/-- Witness for C2 -/
theorem allocate_idempotent_dedup_witness :
    shorten_url [⟨"2222222", "https://example.com/a"⟩]
        [("url", Json.str "https://example.com/a")] 5 =
      (ShortenResult.dedupHit "2222222" "URL already shortened",
        [⟨"2222222", "https://example.com/a"⟩]) :=
  allocate_idempotent_dedup.1 [] [⟨"2222222", "https://example.com/a"⟩]
    [("url", Json.str "https://example.com/a")] 0 5 "2222222" (by decide)

/-- Witness for C4 -/
theorem invalid_input_iff_witness :
    shorten_url [] [("url", Json.str "ftp://example.com")] 0 =
      (ShortenResult.badRequest "URL must start with http:// or https://", []) ∧
    shorten_url [] [("url", Json.str "")] 0 =
      (ShortenResult.badRequest "Missing 'url' parameter", []) :=
  ⟨((invalid_input_iff [] [("url", Json.str "ftp://example.com")] 0).2
        "ftp://example.com" rfl).2.1 (by decide) (by decide),
   ((invalid_input_iff [] [("url", Json.str "")] 0).2 "" rfl).1 rfl⟩

/-- Witness for C5 -/
theorem resolve_exact_match_witness :
    redirect_to_long_url [⟨"AbC2222", "https://a.example"⟩] "zzzzzzz" =
      (ResolveResult.notFound404 "Short URL not found", [⟨"AbC2222", "https://a.example"⟩]) :=
  (resolve_exact_match [⟨"AbC2222", "https://a.example"⟩] "zzzzzzz").1 (by decide)

/-- Witness for C6 -/
theorem short_code_uniqueness_invariant_witness :
    UniqueCodes (runRequests [] [([("url", Json.str "https://example.com/a")], 0)]) ∧
    store_insert [⟨"2222222", "https://a.example"⟩] ⟨"2222222", "https://b.example"⟩ =
      Except.error () :=
  ⟨short_code_uniqueness_invariant.1 [] [([("url", Json.str "https://example.com/a")], 0)]
      List.Pairwise.nil,
   short_code_uniqueness_invariant.2 [⟨"2222222", "https://a.example"⟩]
      ⟨"2222222", "https://b.example"⟩ ⟨⟨"2222222", "https://a.example"⟩, by decide⟩⟩

/-- Witness for C7 -/
theorem short_code_seven_chars_witness :
    (shortuuid_uuid 0).length = 22 ∧ ("2222222" : String).length = 7 :=
  ⟨(short_code_seven_chars 0).1 (by decide),
   (short_code_seven_chars 0).2.2.2 [] [("url", Json.str "https://example.com/a")]
      "2222222" [⟨"2222222", "https://example.com/a"⟩] (by decide)⟩

/-- Witness for C8 -/
theorem frame_conditions_witness :
    ∃ row, row.short_id = "2222222" ∧
      (shorten_url [] [("url", Json.str "https://example.com/a")] 0).2 = [] ++ [row] :=
  (frame_conditions [] [("url", Json.str "https://example.com/a")] 0 "zzzzzzz").1
    "2222222" (by decide)

/-- Witness for C9 (amended) -/
theorem nonstring_truthy_url_type_error_witness :
    shorten_url [] [("url", Json.num 123)] 0 = (ShortenResult.typeError, []) :=
  nonstring_truthy_url_type_error [] [("url", Json.num 123)] 0 (Json.num 123) rfl
    (fun _ h => Json.noConfusion h) rfl

/-- Witness for C10 -/
theorem short_code_alphabet_urlsafe_witness :
    '2' ∈ shortuuidAlphabet ∧ '2' ∉ ['0', 'O', 'I', 'l', '1'] :=
  short_code_alphabet_urlsafe 0 '2' (by decide)

end URLShortener
